import Mathlib

/-!
Verification development for the salinity-harp evaluation pipeline of the
mpi_icelab_routines repository (src/harps/salinity_harps.py).

The Python source is shallowly embedded: floating-point values are modelled
as rationals (`ℚ`), the NaN missing-value marker as `Option.none`, pandas
Series/DataArray columns as `List (Option ℚ)`, and exceptions as
`Except PyErr`.  The smoothing helpers imported from the repository module
`harps.helpers` (median, grad, savgol, butterworth) are not present under
the sources; those four definitions are modelled from the specification and
are marked as such in their doc comments.  Everything else is translated
from salinity_harps.py.
-/

namespace Harps

/-- Python/pandas/numpy exception values that the embedded pipeline can
raise, one constructor per exception class observed in the translated
code paths. -/
inductive PyErr where
  /-- pandas.errors.EmptyDataError raised by read of a file with no
  parseable content at all. -/
  | emptyDataError
  /-- IndexError from positional indexing out of bounds, for instance
  `df.iloc` with column 0 on a frame with no columns. -/
  | indexError
  /-- KeyError, carrying the message string. -/
  | keyError (msg : String)
  /-- NameError from `eval` of a name that resolves to nothing. -/
  | nameError
  /-- ValueError, carrying the message string. -/
  | valueError (msg : String)
  /-- TypeError, for instance calling a non-callable object. -/
  | typeError
  deriving DecidableEq, Repr

/-! ## Missing-value ("NaN") arithmetic on `Option ℚ`

NaN-propagating elementwise arithmetic of numpy/pandas: an operation
involving a missing value is missing, and every ordering comparison
against a missing value is `false` (as NaN comparisons are in IEEE).
Division by zero produces a non-finite float in numpy; non-finite values
are modelled as missing (`none`) here, which is observationally equal in
every use the pipeline makes of them (band membership tests and
threshold masks, which reject NaN and infinities alike). -/

/-- NaN-propagating addition. -/
def oadd : Option ℚ → Option ℚ → Option ℚ
  | some x, some y => some (x + y)
  | _, _ => none

/-- NaN-propagating subtraction. -/
def osub : Option ℚ → Option ℚ → Option ℚ
  | some x, some y => some (x - y)
  | _, _ => none

/-- NaN-propagating multiplication. -/
def omul : Option ℚ → Option ℚ → Option ℚ
  | some x, some y => some (x * y)
  | _, _ => none

/-- NaN-propagating division; division by zero is modelled as missing. -/
def odiv : Option ℚ → Option ℚ → Option ℚ
  | some x, some y => if y = 0 then none else some (x / y)
  | _, _ => none

/-- Comparison `x < y` in the NaN semantics: `false` whenever either side
is missing. -/
def oltB : Option ℚ → Option ℚ → Bool
  | some x, some y => decide (x < y)
  | _, _ => false

/-- Comparison `x ≤ y` in the NaN semantics: `false` whenever either side
is missing. -/
def oleB : Option ℚ → Option ℚ → Bool
  | some x, some y => decide (x ≤ y)
  | _, _ => false

/-! ## Small list utilities (insertion sort, first-occurrence dedup) -/

/-- Insert into a list sorted by the boolean relation `le`. -/
def insertLe {α : Type} (le : α → α → Bool) (x : α) : List α → List α
  | [] => [x]
  | y :: ys => if le x y then x :: y :: ys else y :: insertLe le x ys

/-- Insertion sort by the boolean relation `le`; models the sorted row
and column orders pandas produces in `sort_index` and `unstack`. -/
def sortLe {α : Type} (le : α → α → Bool) : List α → List α
  | [] => []
  | x :: xs => insertLe le x (sortLe le xs)

/-- Remove duplicates keeping the first occurrence of each element. -/
def uniq {α : Type} [DecidableEq α] : List α → List α
  | [] => []
  | x :: xs => x :: ((uniq xs).filter (· ≠ x))

/-- Append-accumulator step of `splitChar`. -/
def splitCharAux (sep : Char) : List Char → List Char → List (List Char)
  | [], acc => [acc.reverse]
  | c :: cs, acc =>
      if c = sep then acc.reverse :: splitCharAux sep cs []
      else splitCharAux sep cs (c :: acc)

/-- Split a character list at every occurrence of the separator, Python
str.split semantics with an explicit separator: consecutive separators
produce empty fields. -/
def splitChar (sep : Char) (s : List Char) : List (List Char) :=
  splitCharAux sep s []

/-- Boolean digit test on the character code. -/
def isDigitB (c : Char) : Bool := 48 ≤ c.toNat && c.toNat ≤ 57

/-- Lexicographic boolean order on character lists by character code. -/
def charsLe : List Char → List Char → Bool
  | [], _ => true
  | _ :: _, [] => false
  | a :: as, b :: bs => if a = b then charsLe as bs else decide (a.toNat < b.toNat)

/-- Boolean order on `String` used for the time index (ISO8601 timestamps
sort chronologically in lexicographic string order). -/
def strLe (a b : String) : Bool := charsLe a.toList b.toList

/-- Boolean order on optional rationals putting missing values last, as
pandas sorts NaN keys last. -/
def onumLe : Option ℚ → Option ℚ → Bool
  | some x, some y => decide (x ≤ y)
  | some _, none => true
  | none, some _ => false
  | none, none => true

/-- Lexicographic order on (module, wire_pair) index keys. -/
def keyLe (a b : Option ℚ × Option ℚ) : Bool :=
  if a.1 = b.1 then onumLe a.2 b.2
  else onumLe a.1 b.1 && !(decide (a.1 = b.1))

/-! ## Tokenizer: salinity_harps.read_harp_file, lines 72-108

The log file is read with pandas `read_csv(names=col_names, comment=hash,
sep=space, error_bad_lines=False)`: the portion of each line from the
first hash character on is ignored, blank lines are skipped, each
surviving line is split on single spaces into at most 8 fields (lines
with more fields are dropped by error_bad_lines=False, lines with fewer
are padded with NaN).  The `device` field is split on colons into module
and wire_pair, the `time` field must coerce to a datetime (rows with an
unparseable time are dropped), and every remaining column is stripped of
all characters other than digits and the decimal point and then coerced
to a number (NaN when the remainder is not numeric). -/

/-- Check whether a character survives the cleaning regex of line 102,
which keeps only the digits 0-9 and the decimal point. -/
def keepChar (c : Char) : Bool := isDigitB c || c = '.'

/-- Model of `df.replace(regex=True, to_replace=r"[^0-9.]", value="")`
(line 102): every character that is not a digit or a dot is removed. -/
def stripNonNumeric (s : List Char) : List Char :=
  s.filter keepChar

/-- Parse a run of digits as a natural number; `none` when the run is
empty or holds a non-digit. -/
def parseDigits (s : List Char) : Option ℕ :=
  if s.isEmpty || !(s.all isDigitB) then none
  else some (s.foldl (fun n c => 10 * n + (c.toNat - 48)) 0)

/-- Model of `pd.to_numeric(errors=coerce)` (line 105) applied after the
cleaning regex: an optional integer part and an optional fractional part
around at most one decimal point; anything else coerces to NaN. -/
def parseNum (s : List Char) : Option ℚ :=
  let t := stripNonNumeric s
  match splitChar '.' t with
  | [intPart] => (parseDigits intPart).map (fun n => (n : ℚ))
  | [intPart, fracPart] =>
      if intPart.isEmpty && fracPart.isEmpty then none
      else
        let ip : Option ℕ := if intPart.isEmpty then some 0 else parseDigits intPart
        let fp : Option ℕ := if fracPart.isEmpty then some 0 else parseDigits fracPart
        match ip, fp with
        | some i, some f => some ((i : ℚ) + (f : ℚ) / ((10 : ℚ) ^ fracPart.length))
        | _, _ => none
  | _ => none

/-- Check that a character run is exactly `n` digits long. -/
def digitsRun (s : List Char) (n : ℕ) : Bool :=
  s.length = n && s.all isDigitB

/-- Model of `pd.to_datetime(errors=coerce)` (line 94) restricted to the
ISO8601 timestamp layout the harp logger emits,
YYYY-MM-DDTHH:MM:SS; strings of any other shape coerce to NaT and the
row is subsequently dropped by `dropna` (line 96). -/
def isValidDatetime (s : List Char) : Bool :=
  match splitChar 'T' s with
  | [d, t] =>
      (match splitChar '-' d with
       | [y, mo, da] =>
           digitsRun y 4 && digitsRun mo 2 && digitsRun da 2 &&
           (parseDigits mo).getD 0 ≥ 1 && (parseDigits mo).getD 0 ≤ 12 &&
           (parseDigits da).getD 0 ≥ 1 && (parseDigits da).getD 0 ≤ 31
       | _ => false) &&
      (match splitChar ':' t with
       | [h, mi, se] =>
           digitsRun h 2 && digitsRun mi 2 && digitsRun se 2 &&
           (parseDigits h).getD 0 ≤ 23 && (parseDigits mi).getD 0 ≤ 59 &&
           (parseDigits se).getD 0 ≤ 59
       | _ => false)
  | _ => false

/-- One parsed log row after the index columns are in place: the module
and wire_pair numbers (NaN when non-numeric), the timestamp string, and
the six numeric channels in file order
r2, d2, r16, d16, temperature, logger_temp (NaN where coercion failed). -/
structure LogRecord where
  module : Option ℚ
  wire_pair : Option ℚ
  time : String
  channels : List (Option ℚ)
  deriving DecidableEq, Repr

/-- The (module, wire_pair) index key of a record. -/
def LogRecord.key (r : LogRecord) : Option ℚ × Option ℚ :=
  (r.module, r.wire_pair)

/-- Strip the comment part of a line: pandas `comment=hash` ignores
everything from the first hash character on. -/
def stripComment (line : String) : String :=
  String.mk (line.toList.takeWhile (· ≠ '#'))

/-- Lines that contribute rows to the pandas frame: after comment
stripping something non-blank must remain (read_csv skips blank lines). -/
def contentLines (lines : List String) : List String :=
  (lines.map stripComment).filter (fun l => !(l.toList.all (· = ' ')))

/-- Split a content line into its raw fields: `sep=space` splits on every
single space.  Lines with more than the 8 named fields are discarded by
`error_bad_lines=False`; shorter rows are padded with missing fields. -/
def csvFields (line : String) : Option (List (Option (List Char))) :=
  let toks := splitChar ' ' line.toList
  if toks.length > 8 then none
  else some (toks.map some ++ List.replicate (8 - toks.length) none)

/-- The rows the pandas frame holds, one per surviving line. -/
def csvRows (lines : List String) : List (List (Option (List Char))) :=
  (contentLines lines).filterMap csvFields

/-- Turn one csv row into a LogRecord following lines 82-105: split the
device field on colons keeping the first two parts (str.split with
maxsplit 2), require a parseable timestamp (rows failing
`pd.to_datetime` are dropped), and numerically coerce the cleaned module,
wire_pair and channel fields. -/
def parseRow (cells : List (Option (List Char))) : Option LogRecord :=
  let device := (cells.getD 0 none).getD []
  let timeStr := (cells.getD 1 none).getD []
  if isValidDatetime timeStr then
    let parts := splitChar ':' device
    let moduleStr : Option (List Char) := parts.get? 0
    let wireStr : Option (List Char) := parts.get? 1
    some
      { module := moduleStr.bind parseNum
        wire_pair := wireStr.bind parseNum
        time := String.mk timeStr
        channels := (List.range 6).map (fun i => (cells.getD (i + 2) none).bind parseNum) }
  else none

/-- All records that survive tokenization and the datetime dropna. -/
def validRecords (lines : List String) : List LogRecord :=
  (csvRows lines).filterMap parseRow

/-! ## Reshaper: salinity_harps.read_harp_file, lines 108-139

The frame indexed by (time, module, wire_pair) is unstacked twice into a
wide frame with one row per timestamp and one column per
(channel, module, wire_pair) triple, channels in file order and the
module and wire_pair levels ascending.  `lastcol_idx` collects the rows
whose column 0 - channel r2 at the smallest (module, wire_pair) key -
is present before backward fill; every column is then backward filled,
the frame is restricted to `lastcol_idx`, stacked back to long form
(dropping rows that are entirely missing) and converted to an
xarray.Dataset.  The trailing `[:-1]` slice that would drop the final
row is commented out in the source (line 129). -/

/-- Index key type of the salinity harp frame. -/
abbrev HarpKey := Option ℚ × Option ℚ

/-- Sorted timestamps observed in the record stream (`sort_index`). -/
def sortedTimes (recs : List LogRecord) : List String :=
  sortLe strLe (uniq (recs.map LogRecord.time))

/-- Sorted (module, wire_pair) keys observed in the record stream; the
unstacked wide frame has one column block per key. -/
def sortedKeys (recs : List LogRecord) : List HarpKey :=
  sortLe keyLe (uniq (recs.map LogRecord.key))

/-- The smallest (module, wire_pair) key: its r2 channel is column 0 of
the wide frame. -/
def minKey (recs : List LogRecord) : HarpKey :=
  (sortedKeys recs).getD 0 (none, none)

/-- Cell of the wide frame before backward fill: the channel value of the
unique record at the given timestamp and key, missing when no record
reported there. -/
def wideCell (recs : List LogRecord) (t : String) (k : HarpKey) (c : ℕ) : Option ℚ :=
  match recs.find? (fun r => r.time = t && r.key = k) with
  | some r => (r.channels.getD c none)
  | none => none

/-- One wide-frame column (fixed key and channel) down the sorted time
axis. -/
def wideColumn (recs : List LogRecord) (k : HarpKey) (c : ℕ) : List (Option ℚ) :=
  (sortedTimes recs).map (fun t => wideCell recs t k c)

/-- First present value of a column suffix, the value backward fill
propagates upward. -/
def firstSome : List (Option ℚ) → Option ℚ
  | [] => none
  | x :: xs => match x with | some v => some v | none => firstSome xs

/-- Model of `df.fillna(method=bfill)` (line 126) on one column: each
missing cell takes the next present value below it. -/
def bfill : List (Option ℚ) → List (Option ℚ)
  | [] => []
  | x :: xs => (match x with | some v => some v | none => firstSome xs) :: bfill xs

/-- Mask of `lastcol_idx` (line 123): the timestamps at which column 0 of
the wide frame - channel r2 of the smallest key - is present, computed
before backward fill. -/
def lastColTimes (recs : List LogRecord) : List String :=
  (sortedTimes recs).filter (fun t => (wideCell recs t (minKey recs) 0).isSome)

/-- Position of a timestamp in the row index. -/
def posOf (t : String) : List String → Option ℕ
  | [] => none
  | s :: ss => if s = t then some 0 else (posOf t ss).map (· + 1)

/-- Backward-filled wide cell restricted to one timestamp: the value the
frame holds at (t, key, channel) after `fillna(method=bfill)`.  The fill
runs down the full sorted time axis. -/
def bfilledCell (recs : List LogRecord) (t : String) (k : HarpKey) (c : ℕ) : Option ℚ :=
  match posOf t (sortedTimes recs) with
  | some i => (bfill (wideColumn recs k c)).getD i none
  | none => none

/-- The six backward-filled channel values at one (time, key) cell. -/
def bfilledChannels (recs : List LogRecord) (t : String) (k : HarpKey) : List (Option ℚ) :=
  (List.range 6).map (bfilledCell recs t k)

/-- The regularized dataset: the long rows that survive the final
`stack().stack()` (each carrying its six channel values), together with
the coordinate axes `to_xarray` builds from the stacked index. -/
structure Dataset where
  rows : List (String × HarpKey × List (Option ℚ))
  times : List String
  modules : List (Option ℚ)
  wirePairs : List (Option ℚ)
  deriving DecidableEq, Repr

instance : Inhabited Dataset := ⟨⟨[], [], [], []⟩⟩

/-- Long rows after restricting to `lastcol_idx` and stacking back:
stack drops a (time, module, wire_pair) row only when all six of its
channel values are missing. -/
def stackedRows (recs : List LogRecord) : List (String × HarpKey × List (Option ℚ)) :=
  (lastColTimes recs).flatMap (fun t =>
    (sortedKeys recs).filterMap (fun k =>
      let cs := bfilledChannels recs t k
      if cs.any Option.isSome then some (t, k, cs) else none))

/-- Assemble the xarray.Dataset from the stacked frame: the coordinates
are the distinct index values of each level. -/
def buildDataset (recs : List LogRecord) : Dataset :=
  let rows := stackedRows recs
  { rows := rows
    times := uniq (rows.map (·.1))
    modules := sortLe onumLe (uniq (rows.map (·.2.1.1)))
    wirePairs := sortLe onumLe (uniq (rows.map (·.2.1.2))) }

/-- Reshape step of read_harp_file (lines 108-139).  Pandas `unstack`
raises ValueError when the (time, module, wire_pair) index holds
duplicate entries; and when no record remains, the unstacked frame has
no columns, so `df.iloc` with column index 0 (line 123) raises
IndexError. -/
def reshape (recs : List LogRecord) : Except PyErr Dataset :=
  if (uniq (recs.map (fun r => (r.time, r.key)))).length ≠ recs.length then
    .error (.valueError "Index contains duplicate entries, cannot reshape")
  else if recs.isEmpty then
    .error .indexError
  else
    .ok (buildDataset recs)

/-- Model of salinity_harps.read_harp_file (lines 61-143): pandas
read_csv raises EmptyDataError when no line yields any content at all;
otherwise the surviving rows are tokenized, rows without a valid
timestamp are dropped, and the record stream is reshaped. -/
def read_harp_file (lines : List String) : Except PyErr Dataset :=
  if (contentLines lines).isEmpty then .error .emptyDataError
  else reshape (validRecords lines)

/-- Number of steps of the time coordinate of a dataset. -/
def numTimeSteps (ds : Dataset) : ℕ := ds.times.length

/-! ## Smoothing helpers

The module `harps.helpers` that salinity_harps.py imports (line 53:
median, grad, savgol, butterworth) is not among the sources; the four
functions below are modelled from the specification, which states that
every smoother maps a series to a series of the same length and index,
that the derivative is a centered difference over a lag of 20 samples,
and that the derivative is re-smoothed with a moving median.  All four
propagate missing values. -/

/-- Series values are per-wire_pair time columns of optional rationals. -/
abbrev Series := List (Option ℚ)

/-- Grids hold one series per wire pair (the wire_pair axis of the
2-D DataArray, time running down each column). -/
abbrev Grid := List Series

/-- Value of a series at a clamped index (edge values are reused at the
boundary). -/
def clampGet (xs : Series) (i : ℕ) : Option ℚ :=
  xs.getD (min i (xs.length - 1)) none

/-- Modelled from the spec: `grad` of harps.helpers, the first
time-derivative as a centered difference over a lag of `n` samples,
one-sided at the series boundary (indices clamped into range). -/
def grad (xs : Series) (n : ℕ) : Series :=
  (List.range xs.length).map (fun i =>
    (osub (clampGet xs (i + n / 2)) (clampGet xs (i - n / 2))).bind
      (fun d => if (n : ℚ) = 0 then none else some (d / (n : ℚ))))

/-- Median of three rationals. -/
def med3 (x y z : ℚ) : ℚ := max (min x y) (min (max x y) z)

/-- Modelled from the spec: `median` of harps.helpers, a moving-median
smoother (window of three samples, clamped at the edges); a window that
touches a missing value yields a missing value. -/
def median (xs : Series) : Series :=
  (List.range xs.length).map (fun i =>
    match clampGet xs (i - 1), clampGet xs i, clampGet xs (i + 1) with
    | some a, some b, some c => some (med3 a b c)
    | _, _, _ => none)

/-- Modelled from the spec: `butterworth` of harps.helpers, a low-pass
smoother modelled as a moving average over three samples (clamped at the
edges), missing values propagating. -/
def butterworth (xs : Series) : Series :=
  (List.range xs.length).map (fun i =>
    match clampGet xs (i - 1), clampGet xs i, clampGet xs (i + 1) with
    | some a, some b, some c => some ((a + b + c) / 3)
    | _, _, _ => none)

/-- Modelled from the spec: `savgol` of harps.helpers, a Savitzky-Golay
smoother modelled as a moving average over five samples (clamped at the
edges), missing values propagating. -/
def savgol (xs : Series) : Series :=
  (List.range xs.length).map (fun i =>
    match clampGet xs (i - 2), clampGet xs (i - 1), clampGet xs i,
          clampGet xs (i + 1), clampGet xs (i + 2) with
    | some a, some b, some c, some d, some e => some ((a + b + c + d + e) / 5)
    | _, _, _, _, _ => none)

/-! ## Reference resistance detector:
salinity_harps.calc_reference_resistance, lines 229-252 -/

/-- Model of the Python argument passed as `tolerance`: the function
checks `isinstance(tolerance, tuple)` before anything else, so the model
distinguishes a 2-tuple of floats from a 2-element list of floats and
from any other object. -/
inductive PyTolerance where
  | tuple2 (a b : ℚ)
  | list2 (a b : ℚ)
  | other
  deriving DecidableEq, Repr

/-- Whether the argument is a Python tuple. -/
def PyTolerance.isTuple : PyTolerance → Bool
  | .tuple2 _ _ => true
  | _ => false

/-- Model of `eval(kind)` (line 237): the name is evaluated in the module
namespace, which holds the three imported smoothers; names of other
callables visible there - the builtin `abs` is the representative
modelled here - also resolve and are applied to the series, while a name
that resolves to nothing raises NameError.  (Names resolving to
non-callables raise TypeError when applied; they are not needed by any
claim and are subsumed under NameError here only for names that do not
resolve at all.) -/
def evalSmoother (kind : String) : Except PyErr (Series → Series) :=
  if kind = "median" then .ok median
  else if kind = "savgol" then .ok savgol
  else if kind = "butterworth" then .ok butterworth
  else if kind = "abs" then .ok (fun xs => xs.map (fun c => c.map (fun x => |x|)))
  else .error .nameError

/-- Model of `np.nanargmin` on one axis-0 slice: the index of the first
occurrence of the smallest present value; numpy raises
ValueError when the slice holds no present value at all. -/
def nanargmin (xs : Series) : Except PyErr ℕ :=
  match (xs.filterMap id).min? with
  | none => .error (.valueError "All-NaN slice encountered")
  | some m => .ok (xs.findIdx (fun o => o = some m))

/-- The masked gradient column of lines 238-245 for one wire pair: the
smoothed series is differentiated over a lag of 20 samples, re-smoothed
with the moving median, values strictly inside the open tolerance band
are kept (and then overwritten with the common value 1), all others
become missing. -/
def gradTolColumn (f : Series → Series) (lo hi : ℚ) (xs : Series) : Series :=
  (median (grad (f xs) 20)).map (fun g =>
    match g with
    | some v => if lo < v ∧ v < hi then some 1 else none
    | none => none)

/-- The per-wire_pair result of the detector: the selected resistance
values together with the selected time positions (the returned DataArray
carries the corresponding times as its point-wise time coordinate). -/
structure R0s where
  values : List (Option ℚ)
  timeIdxs : List ℕ
  deriving DecidableEq, Repr

/-- Model of salinity_harps.calc_reference_resistance (lines 229-252).
The tolerance must be a tuple (KeyError otherwise, before anything else
is touched), is sorted ascending with `np.sort`, the resistance channel
is read from the dataset (its variables are passed here as named
per-wire_pair grids), the smoother named by `kind` is obtained by
evaluating the name, the masked gradient is built per wire pair, and
`np.nanargmin` along the time axis picks the first unmasked position of
every wire pair; the resistance readings at those positions are
returned.  The final `squeeze()` is a no-op for datasets with more than
one wire pair and is modelled as the identity. -/
def calc_reference_resistance (data : List (String × Grid))
    (resistance_channel : String) (kind : String) (tolerance : PyTolerance) :
    Except PyErr R0s :=
  match tolerance with
  | .tuple2 a b =>
    match data.lookup resistance_channel with
    | none => .error (.keyError resistance_channel)
    | some cols =>
      match evalSmoother kind with
      | .error e => .error e
      | .ok f =>
        match cols.mapM (fun c => nanargmin (gradTolColumn f (min a b) (max a b) c)) with
        | .error e => .error e
        | .ok idxs =>
            .ok { values := (cols.zip idxs).map (fun p => p.1.getD p.2 none)
                  timeIdxs := idxs }
  | _ => .error (.keyError "Parameter tolerance must be a tuple containing two floats.")

/-! ## Brine salinity: salinity_harps.calc_brine_salinity, lines 180-226 -/

/-- Model of salinity_harps.calc_brine_salinity applied to one array
cell: the cubic polynomial S equals a + bT + cT squared + dT cubed with
the literal coefficient set selected by `method`; an unknown method name
raises KeyError before any value is produced.  NaN cells propagate
through the arithmetic. -/
def calc_brine_salinity (T : Option ℚ) (method : String) : Except PyErr (Option ℚ) :=
  if method = "Assur" then
    .ok (T.map (fun t => -1.20 + -21.8 * t + -0.919 * t ^ 2 + -0.0178 * t ^ 3))
  else if method = "N&W09" then
    .ok (T.map (fun t => 0 + -21.4 * t + -0.886 * t ^ 2 + -0.0170 * t ^ 3))
  else if method = "Vancoppenolle" then
    .ok (T.map (fun t => 0 + -18.7 * t + -0.519 * t ^ 2 + -0.00535 * t ^ 3))
  else
    .error (.keyError "Method unknown!")

/-! ## Dataset evaluation: salinity_harps.read_harp_data, lines 146-177 -/

/-- Names of the six channel variables, in frame column order. -/
def channelNames : List String :=
  ["r2", "d2", "r16", "d16", "temperature", "logger_temp"]

/-- Channel grid of a dataset restricted to one module
(`data.sel(module=module)`): one column per wire-pair coordinate, one
entry per time coordinate, missing where the stacked frame holds no row
or the row lacks the channel. -/
def gridOf (ds : Dataset) (m : ℚ) (c : ℕ) : Grid :=
  ds.wirePairs.map (fun w =>
    ds.times.map (fun t =>
      match ds.rows.find? (fun r => r.1 = t && r.2.1 = (some m, w)) with
      | some r => r.2.2.getD c none
      | none => none))

/-- All six variables of a dataset restricted to one module, as named
grids - the shape in which the detector reads the dataset. -/
def toVars (ds : Dataset) (m : ℚ) : List (String × Grid) :=
  (List.range 6).map (fun c => (channelNames.getD c "", gridOf ds m c))

/-- Model of line 162, `T.where(T < T_freeze)`: each wire pair keeps the
temperature cells strictly below its freezing-transition temperature;
all other cells - including cells equal to the transition temperature,
cells with a missing transition temperature and missing cells - become
missing. -/
def maskedTemperature (tempGrid : Grid) (tFreeze : List (Option ℚ)) : Grid :=
  (tempGrid.zip tFreeze).map (fun p =>
    p.1.map (fun c => if oltB c p.2 then c else none))

/-- Model of line 168, `liquid_frac.where(liquid_frac <= 1)`: cells above
1 and missing cells become missing, all others are kept. -/
def whereLe1 (c : Option ℚ) : Option ℚ :=
  if oleB c (some 1) then c else none

/-- The enriched dataset read_harp_data returns: the original channel
variables of the selected module plus the four derived variables.  All
grids are wire_pair-major (the transpose on line 168 only reorders the
dims of the xarray object). -/
structure DataOut where
  times : List String
  wirePairs : List (Option ℚ)
  channelVars : List (String × Grid)
  brineSalinity : Grid
  solidFraction : Grid
  liquidFraction : Grid
  bulkSalinity : Grid
  deriving DecidableEq, Repr

instance : Inhabited DataOut := ⟨⟨[], [], [], [], [], [], []⟩⟩

/-- Model of salinity_harps.read_harp_data (lines 146-177): read the
file, select the module (KeyError when that module coordinate does not
exist), compute the reference resistance on channel r16 with the
butterworth smoother and tolerance (1e-4, 3e-4), restrict the
temperature to values strictly below each wire pair's transition
temperature, derive the brine salinity with the Vancoppenolle formula,
the liquid fraction as R0 over R masked to at most 1, the solid fraction
as 1 minus the liquid fraction, and the bulk salinity as liquid fraction
times brine salinity. -/
def read_harp_data (lines : List String) (m : ℚ) : Except PyErr DataOut := do
  let ds ← read_harp_file lines
  if (some m) ∉ ds.modules then
    Except.error (.keyError "module not found")
  else
    let vars := toVars ds m
    let r0s ← calc_reference_resistance vars "r16" "butterworth"
      (.tuple2 (1/10000) (3/10000))
    let tempGrid := gridOf ds m 4
    let r16Grid := gridOf ds m 2
    let tFreeze := (tempGrid.zip r0s.timeIdxs).map (fun p => p.1.getD p.2 none)
    let tMasked := maskedTemperature tempGrid tFreeze
    let sBrine ← tMasked.mapM (fun col =>
      col.mapM (fun c => calc_brine_salinity c "Vancoppenolle"))
    let lf := (r0s.values.zip r16Grid).map (fun p =>
      p.2.map (fun c => whereLe1 (odiv p.1 c)))
    let sf := lf.map (fun col => col.map (fun c => osub (some 1) c))
    let sBulk := (lf.zip sBrine).map (fun p =>
      (p.1.zip p.2).map (fun q => omul q.1 q.2))
    return { times := ds.times
             wirePairs := ds.wirePairs
             channelVars := vars
             brineSalinity := sBrine
             solidFraction := sf
             liquidFraction := lf
             bulkSalinity := sBulk }

/-! ## Concrete logs used by the witnesses and counterexamples -/

/-- A log holding one complete scan cycle (both wire pairs of module 0
report) followed by one incomplete trailing cycle (only wire pair 0
reports before end of file). -/
def demoTrailingLog : List String :=
  [ "0:0: 2019-01-01T00:00:00 500.0 2 500.0 2 5.0 20.0"
  , "0:1: 2019-01-01T00:00:05 500.0 2 500.0 2 5.0 20.0"
  , "0:0: 2019-01-01T00:01:00 500.0 2 500.0 2 5.0 20.0" ]

/-- A well-formed log with three complete scan cycles of module 0 (wire
pairs 0 and 1) whose r16 channel ramps gently enough that the smoothed
derivative of every wire pair falls inside the detector's default
tolerance band. -/
def demoLog : List String :=
  [ "0:0: 2019-01-01T00:00:00 500.0 2 500.0 2 5.0 20.0"
  , "0:1: 2019-01-01T00:00:05 500.0 2 500.0 2 5.0 20.0"
  , "0:0: 2019-01-01T00:01:00 500.0 2 500.002 2 5.0 20.0"
  , "0:1: 2019-01-01T00:01:05 500.0 2 500.002 2 5.0 20.0"
  , "0:0: 2019-01-01T00:02:00 500.0 2 500.004 2 5.0 20.0"
  , "0:1: 2019-01-01T00:02:05 500.0 2 500.004 2 5.0 20.0" ]

/-- A two-wire_pair resistance grid whose gentle ramp qualifies at index
0 under the default tolerance band. -/
def demoGrid : Grid :=
  [ [some 500, some (500 + 1/500), some (500 + 1/250)]
  , [some 500, some (500 + 1/500), some (500 + 1/250)] ]

/-- A cell is at most 1 or missing. -/
def cellLe1 : Option ℚ → Bool
  | none => true
  | some x => decide (x ≤ 1)

/-- Every liquid-fraction cell of a successful read_harp_data result is
at most 1 or missing; an error result holds no cells at all. -/
def liquidFractionOk : Except PyErr DataOut → Bool
  | .error _ => true
  | .ok ds => ds.liquidFraction.all (fun col => col.all cellLe1)

/-- Band membership test on a derivative sample: strictly inside the
open tolerance interval; missing samples never qualify. -/
def insideBand (lo hi : ℚ) : Option ℚ → Bool
  | some v => decide (lo < v ∧ v < hi)
  | none => false

/-- First index of a derivative column lying strictly inside the open
tolerance interval (length of the column when no sample qualifies). -/
def firstInsideIdx (lo hi : ℚ) (deriv : Series) : ℕ :=
  deriv.findIdx (insideBand lo hi)

/-- The read_harp_data pipeline genuinely succeeds on a concrete log:
the success branch analysed by the invariant theorems is reachable. -/
theorem read_harp_data_demo_runs : (read_harp_data demoLog 0).isOk = true := by
  with_unfolding_all rfl

/-! ## Claims -/

/-- C4: for every temperature input, calc_brine_salinity computes the
cubic polynomial a + bT + cT squared + dT cubed with the literal
coefficients of the selected formula (Assur 1958, Notz and Worster 2009,
Vancoppenolle 2019), and in particular evaluates to -1.20 at 0 degrees
for Assur and to 0 at 0 degrees for Vancoppenolle. -/
theorem brine_salinity_cubic (T : ℚ) :
    calc_brine_salinity (some T) "Assur" =
      .ok (some (-1.20 + -21.8 * T + -0.919 * T ^ 2 + -0.0178 * T ^ 3)) ∧
    calc_brine_salinity (some T) "N&W09" =
      .ok (some (0 + -21.4 * T + -0.886 * T ^ 2 + -0.0170 * T ^ 3)) ∧
    calc_brine_salinity (some T) "Vancoppenolle" =
      .ok (some (0 + -18.7 * T + -0.519 * T ^ 2 + -0.00535 * T ^ 3)) ∧
    calc_brine_salinity (some 0) "Assur" = .ok (some (-1.20)) ∧
    calc_brine_salinity (some 0) "Vancoppenolle" = .ok (some 0) := by
  refine ⟨?_, ?_, ?_, ?_, ?_⟩
  · with_unfolding_all rfl
  · with_unfolding_all rfl
  · with_unfolding_all rfl
  · with_unfolding_all rfl
  · with_unfolding_all rfl

/-- C9: the tolerance pair is sorted ascending inside
calc_reference_resistance (np.sort), so swapping its two components
leaves the result unchanged for every dataset, channel and method. -/
theorem tolerance_swap_invariant (data : List (String × Grid))
    (ch kind : String) (a b : ℚ) :
    calc_reference_resistance data ch kind (.tuple2 a b) =
      calc_reference_resistance data ch kind (.tuple2 b a) := by
  simp only [calc_reference_resistance, min_comm a b, max_comm a b]

/-- C10: a tolerance argument that is not a tuple - a two-element list
of floats included - makes calc_reference_resistance raise KeyError
before the dataset is read or any smoothing runs: the error is the same
for every dataset (even one lacking the resistance channel) and every
method name (even an unresolvable one). -/
theorem tolerance_type_checked_first (data : List (String × Grid))
    (ch kind : String) (t : PyTolerance) (h : t.isTuple = false) :
    calc_reference_resistance data ch kind t =
      .error (.keyError "Parameter tolerance must be a tuple containing two floats.") := by
  cases t with
  | tuple2 a b => simp [PyTolerance.isTuple] at h
  | list2 a b => rfl
  | other => rfl

/-- C10 witness: a two-element list of floats is rejected with the
KeyError even though the empty dataset lacks the channel and the method
name is unresolvable. -/
theorem tolerance_type_checked_first_witness :
    (PyTolerance.list2 (1/10000) (3/10000)).isTuple = false ∧
    calc_reference_resistance [] "r16" "nonsense"
        (.list2 (1/10000) (3/10000)) =
      .error (.keyError "Parameter tolerance must be a tuple containing two floats.") :=
  ⟨rfl, tolerance_type_checked_first [] "r16" "nonsense" _ rfl⟩

/-- Comparison against a missing bound is false on the left. -/
theorem oltB_none_left (y : Option ℚ) : oltB none y = false := by
  cases y <;> rfl

/-- Comparison against a missing bound is false on the right. -/
theorem oltB_none_right (x : Option ℚ) : oltB x none = false := by
  cases x <;> rfl

/-- Helper for C5: one masked temperature column, cell by cell. -/
theorem maskedTemperature_col (col : Series) (tf : Option ℚ) (j : ℕ) :
    (col.map (fun c => if oltB c tf then c else none)).getD j none =
      (if oltB (col.getD j none) tf then col.getD j none else none) := by
  induction col generalizing j with
  | nil => simp [oltB_none_left]
  | cons c cs ih =>
      cases j with
      | zero => simp
      | succ j => simpa using ih j

/-- C5 counterexample: the claim keeps temperature values at or below
the transition temperature, but the code masks with a strict comparison
(line 162, T.where of T strictly below T_freeze): a temperature cell
equal to its wire pair's transition temperature is masked to missing,
not kept. -/
theorem temperature_mask_at_transition_cex :
    maskedTemperature [[some 5]] [some 5] = [[none]] ∧
    maskedTemperature [[some 5]] [some 5] ≠ [[some 5]] := by
  refine ⟨by with_unfolding_all rfl, ?_⟩
  intro h
  rw [show maskedTemperature [[some 5]] [some 5] = [[none]] from by with_unfolding_all rfl] at h
  simp at h

/-- C5 amended: before brine salinity is computed, read_harp_data
restricts each wire pair's temperature column with a strict comparison:
a cell is kept exactly when it is strictly below the wire pair's
transition temperature, and every cell at or above it (and every cell
whose transition temperature is missing) becomes missing. -/
theorem temperature_mask_strictly_below (tempGrid : Grid)
    (tFreeze : List (Option ℚ)) (i j : ℕ) :
    ((maskedTemperature tempGrid tFreeze).getD i []).getD j none =
      (if oltB ((tempGrid.getD i []).getD j none) (tFreeze.getD i none)
       then (tempGrid.getD i []).getD j none else none) := by
  induction tempGrid generalizing tFreeze i with
  | nil => simp [maskedTemperature, oltB_none_left]
  | cons col cols ih =>
      cases tFreeze with
      | nil =>
          simp [maskedTemperature, oltB_none_right, oltB_none_left]
      | cons tf tfs =>
          cases i with
          | zero => simpa [maskedTemperature] using maskedTemperature_col col tf j
          | succ i => simpa [maskedTemperature] using ih tfs i

/-- The threshold mask of line 168 only lets through cells at most 1. -/
theorem cellLe1_whereLe1 (c : Option ℚ) : cellLe1 (whereLe1 c) = true := by
  cases c with
  | none => rfl
  | some x =>
      by_cases h : x ≤ 1 <;> simp [whereLe1, oleB, cellLe1, h]

/-- C3: in the dataset returned by read_harp_data, every cell of the
liquid fraction variable is at most 1 or missing: the elementwise ratio
R0 over R is masked so that no value above 1 ever appears in the
output. -/
theorem liquid_fraction_le_one (lines : List String) (m : ℚ) :
    liquidFractionOk (read_harp_data lines m) = true := by
  cases hout : read_harp_data lines m with
  | error e => rfl
  | ok ds =>
      unfold read_harp_data at hout
      simp only [bind, Except.bind, pure, Except.pure] at hout
      repeat any_goals split at hout
      any_goals exact Except.noConfusion hout
      injection hout with hds
      subst hds
      simp only [liquidFractionOk, List.all_eq_true]
      intro col hcol c hc
      rcases List.mem_map.mp hcol with ⟨p, hp, rfl⟩
      rcases List.mem_map.mp hc with ⟨x, hx, rfl⟩
      exact cellLe1_whereLe1 _

/-- Bind on a success value reduces to the continuation. -/
theorem ok_bind {ε α β : Type} (a : α) (f : α → Except ε β) :
    (Except.ok a >>= f) = f a := rfl

/-- Bind on an error value short-circuits. -/
theorem error_bind {ε α β : Type} (e : ε) (f : α → Except ε β) :
    ((Except.error e : Except ε α) >>= f) = Except.error e := rfl

/-- Every present value of a masked gradient column equals 1. -/
theorem gradTol_mem (f : Series → Series) (lo hi : ℚ) (c : Series) :
    ∀ x ∈ gradTolColumn f lo hi c, x = none ∨ x = some 1 := by
  intro x hx
  rcases List.mem_map.mp hx with ⟨g, _, rfl⟩
  cases g with
  | none => exact Or.inl rfl
  | some v =>
      by_cases h : lo < v ∧ v < hi
      · exact Or.inr (by simp [h])
      · exact Or.inl (by simp [h])

/-- A column with no present value makes nanargmin raise the numpy
all-NaN ValueError. -/
theorem nanargmin_all_none (xs : Series) (h : ∀ x ∈ xs, x = none) :
    nanargmin xs = .error (.valueError "All-NaN slice encountered") := by
  have hfm : xs.filterMap id = [] := by
    induction xs with
    | nil => rfl
    | cons x xs ih =>
        have hx := h x (List.mem_cons_self x xs)
        subst hx
        simpa using ih (fun y hy => h y (List.mem_cons_of_mem _ hy))
  unfold nanargmin
  rw [hfm]
  rfl

/-- The only error nanargmin can raise is the all-NaN ValueError. -/
theorem nanargmin_error_imp (xs : Series) (e : PyErr)
    (h : nanargmin xs = .error e) :
    e = .valueError "All-NaN slice encountered" := by
  unfold nanargmin at h
  cases hm : (xs.filterMap id).min? with
  | none => rw [hm] at h; exact ((Except.error.injEq _ _).mp h).symm
  | some m => rw [hm] at h; exact Except.noConfusion h

/-- When some element maps to a fixed error and no element can map to a
different error, the whole traversal produces that error. -/
theorem mapM_error_of_mem {α β : Type} (F : α → Except PyErr β) (E : PyErr)
    (l : List α) (hex : ∃ x ∈ l, F x = .error E)
    (huniq : ∀ x ∈ l, ∀ e, F x = .error e → e = E) :
    l.mapM F = .error E := by
  induction l with
  | nil => rcases hex with ⟨x, hx, _⟩; exact absurd hx (List.not_mem_nil x)
  | cons a l ih =>
      rw [List.mapM_cons]
      cases hFa : F a with
      | error e =>
          have he : e = E := huniq a (List.mem_cons_self a l) e hFa
          subst he
          simp [error_bind]
      | ok b =>
          have hex2 : ∃ x ∈ l, F x = .error E := by
            rcases hex with ⟨x, hx, hFx⟩
            rcases List.mem_cons.mp hx with rfl | hxl
            · rw [hFa] at hFx; exact Except.noConfusion hFx
            · exact ⟨x, hxl, hFx⟩
          rw [ok_bind, ih hex2 (fun x hx => huniq x (List.mem_cons_of_mem _ hx))]
          rfl

/-- A pointwise successful traversal succeeds with the mapped list. -/
theorem mapM_ok_of_forall {α β : Type} (F : α → Except PyErr β) (G : α → β)
    (l : List α) (h : ∀ x ∈ l, F x = .ok (G x)) :
    l.mapM F = .ok (l.map G) := by
  induction l with
  | nil => rfl
  | cons a l ih =>
      rw [List.mapM_cons, h a (List.mem_cons_self a l), ok_bind,
        ih (fun x hx => h x (List.mem_cons_of_mem _ hx))]
      rfl

/-- C8 counterexample: on a wire pair whose resistance is constant the
smoothed derivative is identically 0, no sample lies inside the band
(1e-4, 3e-4), and calc_reference_resistance raises the numpy all-NaN
ValueError instead of returning a value. -/
theorem detector_all_nan_raises_cex :
    calc_reference_resistance [("r16", [[some 500, some 500]])] "r16"
        "butterworth" (.tuple2 (1/10000) (3/10000)) =
      .error (.valueError "All-NaN slice encountered") := by
  with_unfolding_all rfl

/-- C8 amended: whenever the masked gradient of some wire pair holds no
present sample - no index of the smoothed derivative lies strictly
inside the tolerance band - calc_reference_resistance does not return a
value: np.nanargmin raises ValueError on the all-NaN slice. -/
theorem detector_all_nan_raises (data : List (String × Grid))
    (ch kind : String) (a b : ℚ) (cols : Grid) (f : Series → Series)
    (hch : data.lookup ch = some cols) (hf : evalSmoother kind = .ok f)
    (hbad : ∃ c ∈ cols, ∀ x ∈ gradTolColumn f (min a b) (max a b) c, x = none) :
    calc_reference_resistance data ch kind (.tuple2 a b) =
      .error (.valueError "All-NaN slice encountered") := by
  unfold calc_reference_resistance
  simp only [hch, hf]
  rw [mapM_error_of_mem _ _ _
    (by rcases hbad with ⟨c, hc, hcnone⟩
        exact ⟨c, hc, nanargmin_all_none _ hcnone⟩)
    (fun x _ e he => nanargmin_error_imp _ e he)]

/-- C8 witness: a concrete constant-resistance wire pair discharges the
amended theorem's hypotheses with the median smoother. -/
theorem detector_all_nan_raises_witness :
    calc_reference_resistance [("r16", [[some 1, some 1, some 1]])] "r16"
        "median" (.tuple2 (1/10000) (3/10000)) =
      .error (.valueError "All-NaN slice encountered") :=
  detector_all_nan_raises _ _ _ _ _ [[some 1, some 1, some 1]] median rfl rfl
    ⟨[some 1, some 1, some 1], List.mem_singleton.mpr rfl,
      of_decide_eq_true (by with_unfolding_all rfl)⟩

/-- C6 counterexample: a log whose only line parses as a row but yields
no valid record (its timestamp does not coerce) makes read_harp_file
fail with IndexError - the positional column access on the empty
reshaped frame - not with any data-format error carrying a descriptive
message. -/
theorem no_valid_records_error_cex :
    validRecords ["x:y: notadate 1 2 3 4 5 6"] = [] ∧
    read_harp_file ["x:y: notadate 1 2 3 4 5 6"] = .error PyErr.indexError := by
  exact ⟨by with_unfolding_all rfl, by with_unfolding_all rfl⟩

/-- C6 amended: when tokenization leaves zero valid records,
read_harp_file always fails, but the exception depends on the shape of
the input: pandas EmptyDataError when not a single line survives
comment and blank stripping, and IndexError from the reshape step
otherwise; no dataset is ever returned. -/
theorem no_valid_records_error_kind (lines : List String)
    (h : validRecords lines = []) :
    read_harp_file lines =
      .error (if (contentLines lines).isEmpty then PyErr.emptyDataError
              else PyErr.indexError) := by
  unfold read_harp_file
  split
  · rfl
  · rw [h]
    rfl

/-- C6 witness: a log holding only a comment line yields zero records
and the EmptyDataError branch of the amended statement. -/
theorem no_valid_records_error_kind_witness :
    read_harp_file ["# header only"] =
      .error (if (contentLines ["# header only"]).isEmpty then PyErr.emptyDataError
              else PyErr.indexError) :=
  no_valid_records_error_kind ["# header only"] (by with_unfolding_all rfl)

/-- C7 counterexample: the eval-based dispatch of
calc_reference_resistance accepts any name that resolves to a callable
in the evaluation namespace: the builtin name abs is not one of the
known smoothing strategies, yet the call returns a reference resistance
instead of raising. -/
theorem smoother_dispatch_abs_cex :
    ("abs" ∉ ["median", "savgol", "butterworth"]) ∧
    calc_reference_resistance [("r16", demoGrid)] "r16" "abs"
        (.tuple2 (1/10000) (3/10000)) =
      .ok { values := [some 500, some 500], timeIdxs := [0, 0] } :=
  ⟨by decide, by with_unfolding_all rfl⟩

/-- C7 amended: calc_brine_salinity raises KeyError for every unknown
formula name and returns no value; calc_reference_resistance raises
NameError for every method name that resolves to nothing in the
evaluation namespace - but a resolvable callable name is applied as the
smoother without any validation (see the counterexample). -/
theorem unknown_name_errors :
    (∀ (T : Option ℚ) (method : String),
        method ∉ ["Assur", "N&W09", "Vancoppenolle"] →
        calc_brine_salinity T method = .error (.keyError "Method unknown!")) ∧
    (∀ (data : List (String × Grid)) (ch kind : String) (a b : ℚ) (cols : Grid),
        data.lookup ch = some cols → evalSmoother kind = .error .nameError →
        calc_reference_resistance data ch kind (.tuple2 a b) =
          .error .nameError) := by
  constructor
  · intro T method h
    have h1 : method ≠ "Assur" := fun e => h (by rw [e]; simp)
    have h2 : method ≠ "N&W09" := fun e => h (by rw [e]; simp)
    have h3 : method ≠ "Vancoppenolle" := fun e => h (by rw [e]; simp)
    simp [calc_brine_salinity, h1, h2, h3]
  · intro data ch kind a b cols hch hf
    unfold calc_reference_resistance
    simp only [hch, hf]

/-- C7 witness: a fully unknown name raises in both functions. -/
theorem unknown_name_errors_witness :
    calc_brine_salinity (some 1) "Frankenstein" = .error (.keyError "Method unknown!") ∧
    calc_reference_resistance [("r16", [[some 1]])] "r16" "Frankenstein"
        (.tuple2 0 1) = .error .nameError :=
  ⟨unknown_name_errors.1 (some 1) "Frankenstein" (by decide),
   unknown_name_errors.2 [("r16", [[some 1]])] "r16" "Frankenstein" 0 1
     [[some 1]] rfl rfl⟩

/-- Minimum of a non-empty constant-one list. -/
theorem min?_all_one (l : List ℚ) (hne : l ≠ []) (hall : ∀ x ∈ l, x = 1) :
    l.min? = some 1 := by
  cases l with
  | nil => exact absurd rfl hne
  | cons x xs =>
      have hx : x = 1 := hall x (List.mem_cons_self x xs)
      subst hx
      have : ∀ ys : List ℚ, (∀ y ∈ ys, y = 1) → ys.foldl min 1 = 1 := by
        intro ys
        induction ys with
        | nil => intro _; rfl
        | cons y ys ih =>
            intro hy
            have h1 : y = 1 := hy y (List.mem_cons_self y ys)
            subst h1
            simpa using ih (fun z hz => hy z (List.mem_cons_of_mem _ hz))
      simp [List.min?, this xs (fun z hz => hall z (List.mem_cons_of_mem _ hz))]

/-- Finding the first sample equal to one and finding the first present
sample agree on columns whose present samples are all one. -/
theorem findIdx_one_eq_isSome (xs : Series)
    (h : ∀ x ∈ xs, x = none ∨ x = some 1) :
    xs.findIdx (fun o => o = some (1 : ℚ)) = xs.findIdx Option.isSome := by
  induction xs with
  | nil => rfl
  | cons x xs ih =>
      rcases h x (List.mem_cons_self x xs) with rfl | rfl
      · simp [List.findIdx_cons,
          ih (fun y hy => h y (List.mem_cons_of_mem _ hy))]
      · simp [List.findIdx_cons]

/-- Finding an index through a mapped list is finding it through the
composed predicate. -/
theorem findIdx_map_comp {α β : Type} (g : α → β) (p : β → Bool)
    (l : List α) :
    (l.map g).findIdx p = l.findIdx (fun x => p (g x)) := by
  induction l with
  | nil => rfl
  | cons x xs ih => simp [List.findIdx_cons, ih]

/-- A present sample of the masked gradient column marks exactly a
derivative sample strictly inside the band. -/
theorem isSome_gradTol_cell (lo hi : ℚ) (g : Option ℚ) :
    (match g with
      | some v => if lo < v ∧ v < hi then some (1 : ℚ) else none
      | none => none).isSome = insideBand lo hi g := by
  cases g with
  | none => rfl
  | some v =>
      by_cases h : lo < v ∧ v < hi <;> simp [h, insideBand]

/-- On a masked gradient column holding at least one present sample,
nanargmin returns the first index of the derivative strictly inside the
band. -/
theorem nanargmin_gradTol (f : Series → Series) (lo hi : ℚ) (c : Series)
    (h : ∃ x ∈ gradTolColumn f lo hi c, x.isSome) :
    nanargmin (gradTolColumn f lo hi c) =
      .ok (firstInsideIdx lo hi (median (grad (f c) 20))) := by
  have hmem := gradTol_mem f lo hi c
  have hne : (gradTolColumn f lo hi c).filterMap id ≠ [] := by
    rcases h with ⟨x, hx, hsome⟩
    rcases hmem x hx with rfl | rfl
    · exact absurd hsome (by simp)
    · have : (1 : ℚ) ∈ (gradTolColumn f lo hi c).filterMap id :=
        List.mem_filterMap.mpr ⟨some 1, hx, rfl⟩
      exact List.ne_nil_of_mem this
  have hall : ∀ y ∈ (gradTolColumn f lo hi c).filterMap id, y = 1 := by
    intro y hy
    rcases List.mem_filterMap.mp hy with ⟨a, ha, hay⟩
    rcases hmem a ha with rfl | rfl
    · exact Option.noConfusion hay
    · exact (Option.some_inj.mp hay).symm
  unfold nanargmin
  rw [min?_all_one _ hne hall]
  show Except.ok ((gradTolColumn f lo hi c).findIdx
      (fun o => o = some (1 : ℚ))) =
    Except.ok (firstInsideIdx lo hi (median (grad (f c) 20)))
  rw [findIdx_one_eq_isSome _ hmem]
  unfold gradTolColumn firstInsideIdx
  rw [findIdx_map_comp]
  have hpred : (fun x : Option ℚ =>
      (match x with
        | some v => if lo < v ∧ v < hi then some (1 : ℚ) else none
        | none => none).isSome) = insideBand lo hi :=
    funext (fun g => isSome_gradTol_cell lo hi g)
  rw [hpred]

/-- Zipping a list with its own image and mapping collapses to a single
map. -/
theorem map_zip_map_self {α β γ : Type} (l : List α) (G : α → β)
    (F : α × β → γ) :
    ((l.zip (l.map G)).map F) = l.map (fun c => F (c, G c)) := by
  induction l with
  | nil => rfl
  | cons x xs ih => simp [ih]

/-- C2: when the tolerance pair is already ascending and every wire
pair's smoothed, differentiated and median-resmoothed derivative has a
sample strictly inside the open band, calc_reference_resistance selects
for each wire pair independently the first time index whose derivative
value lies strictly inside the band and returns that wire pair's
resistance reading at that index.  The hypothesis of at least two wire
pairs keeps the final squeeze (line 248) a no-op, matching the regime
the model embeds. -/
theorem first_inside_band_selection (data : List (String × Grid))
    (ch kind : String) (lo hi : ℚ) (hlohi : lo < hi) (cols : Grid)
    (hch : data.lookup ch = some cols) (f : Series → Series)
    (hf : evalSmoother kind = .ok f) (_hwide : 1 < cols.length)
    (hq : ∀ c ∈ cols, ∃ x ∈ gradTolColumn f lo hi c, x.isSome) :
    calc_reference_resistance data ch kind (.tuple2 lo hi) =
      .ok { values := cols.map (fun c =>
              c.getD (firstInsideIdx lo hi (median (grad (f c) 20))) none)
            timeIdxs := cols.map (fun c =>
              firstInsideIdx lo hi (median (grad (f c) 20))) } := by
  unfold calc_reference_resistance
  simp only [hch, hf]
  rw [min_eq_left hlohi.le, max_eq_right hlohi.le]
  rw [mapM_ok_of_forall _
      (fun c => firstInsideIdx lo hi (median (grad (f c) 20))) _
      (fun c hc => nanargmin_gradTol f lo hi c (hq c hc))]
  simp [map_zip_map_self]

/-- C2 witness: on the demo grid with the butterworth smoother every
wire pair qualifies and the selection happens at the first inside-band
index. -/
theorem first_inside_band_selection_witness :
    ((1 : ℚ)/10000 < 3/10000) ∧
    (∀ c ∈ demoGrid, ∃ x ∈ gradTolColumn butterworth (1/10000) (3/10000) c,
        x.isSome) ∧
    calc_reference_resistance [("r16", demoGrid)] "r16" "butterworth"
        (.tuple2 (1/10000) (3/10000)) =
      .ok { values := demoGrid.map (fun c =>
              c.getD (firstInsideIdx (1/10000) (3/10000)
                (median (grad (butterworth c) 20))) none)
            timeIdxs := demoGrid.map (fun c =>
              firstInsideIdx (1/10000) (3/10000)
                (median (grad (butterworth c) 20))) } :=
  ⟨of_decide_eq_true (by with_unfolding_all rfl),
   of_decide_eq_true (by with_unfolding_all rfl),
   first_inside_band_selection [("r16", demoGrid)] "r16" "butterworth"
     (1/10000) (3/10000) (of_decide_eq_true (by with_unfolding_all rfl))
     demoGrid rfl butterworth rfl
     (of_decide_eq_true (by with_unfolding_all rfl))
     (of_decide_eq_true (by with_unfolding_all rfl))⟩

/-- C1 counterexample: tokenizing then reshaping a log holding exactly
one complete scan cycle plus one partial trailing cycle yields a
dataset with two time steps, not one: the salinity-harp read_harp_file
keeps the row of the last reference timestamp because the trailing drop
(the slice on line 129) is commented out in the source. -/
theorem trailing_cycle_kept_cex :
    (read_harp_file demoTrailingLog).map numTimeSteps = .ok 2 ∧
    (read_harp_file demoTrailingLog).map numTimeSteps ≠ .ok 1 := by
  have h2 : (read_harp_file demoTrailingLog).map numTimeSteps = .ok 2 := by
    with_unfolding_all rfl
  exact ⟨h2, by simp [h2]⟩

/-- Inserting into a sorted list permutes consing. -/
theorem insertLe_perm {α : Type} (le : α → α → Bool) (x : α) (l : List α) :
    (insertLe le x l).Perm (x :: l) := by
  induction l with
  | nil => exact List.Perm.refl _
  | cons y ys ih =>
      unfold insertLe
      split
      · exact List.Perm.refl _
      · exact (ih.cons y).trans (List.Perm.swap x y ys)

/-- Insertion sort permutes its input. -/
theorem sortLe_perm {α : Type} (le : α → α → Bool) (l : List α) :
    (sortLe le l).Perm l := by
  induction l with
  | nil => exact List.Perm.refl _
  | cons x xs ih => exact (insertLe_perm le x (sortLe le xs)).trans (ih.cons x)

/-- Membership is preserved by first-occurrence deduplication. -/
theorem mem_uniq {α : Type} [DecidableEq α] (a : α) (l : List α) :
    a ∈ uniq l ↔ a ∈ l := by
  induction l with
  | nil => simp [uniq]
  | cons x xs ih =>
      by_cases hax : a = x
      · subst hax; simp [uniq]
      · simp [uniq, List.mem_filter, hax, ih]

/-- First-occurrence deduplication yields no duplicates. -/
theorem uniq_nodup {α : Type} [DecidableEq α] (l : List α) :
    (uniq l).Nodup := by
  induction l with
  | nil => exact List.nodup_nil
  | cons x xs ih =>
      refine List.Nodup.cons ?_ (ih.filter _)
      intro hx
      have hne := (List.mem_filter.mp hx).2
      simp at hne

/-- Deduplication of a non-empty list is non-empty. -/
theorem uniq_ne_nil {α : Type} [DecidableEq α] (l : List α) (h : l ≠ []) :
    uniq l ≠ [] := by
  cases l with
  | nil => exact absurd rfl h
  | cons x xs => simp [uniq]

/-- Sorting preserves non-emptiness. -/
theorem sortLe_ne_nil {α : Type} (le : α → α → Bool) (l : List α)
    (h : l ≠ []) : sortLe le l ≠ [] := by
  intro hs
  exact h (List.Perm.eq_nil ((sortLe_perm le l).symm.trans (hs ▸ List.Perm.refl _)))

/-- The head returned by getD of a non-empty list is a member. -/
theorem getD_zero_mem {α : Type} (l : List α) (d : α) (h : l ≠ []) :
    l.getD 0 d ∈ l := by
  cases l with
  | nil => exact absurd rfl h
  | cons x xs => simp

/-- posOf finds a member, and the list holds it at the found position. -/
theorem posOf_spec (t : String) (l : List String) (h : t ∈ l) :
    ∃ i, posOf t l = some i ∧ l[i]? = some t := by
  induction l with
  | nil => simp at h
  | cons s ss ih =>
      by_cases hst : s = t
      · exact ⟨0, by simp [posOf, hst], by simp [hst]⟩
      · have hss : t ∈ ss := by
          rcases List.mem_cons.mp h with rfl | h2
          · exact absurd rfl hst
          · exact h2
        rcases ih hss with ⟨i, h1, h2⟩
        exact ⟨i + 1, by simp [posOf, hst, h1], by simpa using h2⟩

/-- Backward fill never erases a present cell. -/
theorem bfill_isSome (l : Series) (i : ℕ)
    (h : (l.getD i none).isSome = true) :
    ((bfill l).getD i none).isSome = true := by
  induction l generalizing i with
  | nil => simp at h
  | cons x xs ih =>
      cases i with
      | zero =>
          cases x with
          | none => simp at h
          | some v => simp [bfill]
      | succ i => simpa [bfill] using ih i (by simpa using h)

/-- The wide-frame column holds the wide cell at the position of its
timestamp. -/
theorem wideColumn_getD (recs : List LogRecord) (k : HarpKey) (c : ℕ)
    (t : String) (i : ℕ) (h : (sortedTimes recs)[i]? = some t) :
    (wideColumn recs k c).getD i none = wideCell recs t k c := by
  unfold wideColumn
  rw [List.getD_eq_getElem?_getD, List.getElem?_map, h]
  rfl

/-- Filtering away an absent element is the identity. -/
theorem filter_ne_of_not_mem {α : Type} [DecidableEq α] (t : α)
    (l : List α) (h : t ∉ l) : l.filter (· ≠ t) = l := by
  refine List.filter_eq_self.mpr ?_
  intro a ha
  rw [decide_eq_true_eq]
  exact fun e => h (e ▸ ha)

/-- Filtering twice with the same predicate filters once. -/
theorem filter_idem {α : Type} (p : α → Bool) (l : List α) :
    (l.filter p).filter p = l.filter p := by
  induction l with
  | nil => rfl
  | cons x xs ih =>
      by_cases hp : p x
      · simp [List.filter_cons, hp, ih]
      · simp [List.filter_cons, hp, ih]

/-- Deduplicating a constant non-empty block followed by a rest keeps
the block value once in front. -/
theorem uniq_append_const {α : Type} [DecidableEq α] (t : α)
    (l1 l2 : List α) (h1 : ∀ x ∈ l1, x = t) (hne : l1 ≠ []) :
    uniq (l1 ++ l2) = t :: (uniq l2).filter (· ≠ t) := by
  induction l1 with
  | nil => exact absurd rfl hne
  | cons x l1 ih =>
      have hx : t = x := (h1 x (List.mem_cons_self x l1)).symm
      subst hx
      cases l1 with
      | nil => rfl
      | cons y l1 =>
          rw [List.cons_append]
          show t :: (uniq ((y :: l1) ++ l2)).filter (· ≠ t) =
            t :: (uniq l2).filter (· ≠ t)
          rw [ih (fun z hz => h1 z (List.mem_cons_of_mem _ hz)) (by simp)]
          rw [List.filter_cons]
          simp only [decide_not, ne_eq, decide_eq_true_eq]
          rw [if_neg (by simp)]
          exact congrArg (t :: ·) (filter_idem _ _)

/-- Deduplicated heads of a flat map whose blocks are non-empty and
constant in their key recover the key list. -/
theorem uniq_map_fst_flatMap (ts : List String)
    (F : String → List (String × HarpKey × List (Option ℚ)))
    (hnodup : ts.Nodup) (hne : ∀ t ∈ ts, F t ≠ [])
    (hfst : ∀ t ∈ ts, ∀ r ∈ F t, r.1 = t) :
    uniq ((ts.flatMap F).map (·.1)) = ts := by
  induction ts with
  | nil => rfl
  | cons t ts ih =>
      rw [List.flatMap_cons, List.map_append]
      rw [uniq_append_const t _ _
        (by intro x hx
            rcases List.mem_map.mp hx with ⟨r, hr, rfl⟩
            exact hfst t (List.mem_cons_self t ts) r hr)
        (by simpa using hne t (List.mem_cons_self t ts))]
      rw [ih (List.nodup_cons.mp hnodup).2
        (fun u hu => hne u (List.mem_cons_of_mem _ hu))
        (fun u hu => hfst u (List.mem_cons_of_mem _ hu))]
      rw [filter_ne_of_not_mem t ts (List.nodup_cons.mp hnodup).1]

/-- The non-bfilled column-0 cell of a kept timestamp survives backward
fill, so its (time, minimal key) row carries a present channel. -/
theorem bfilledChannels_any (recs : List LogRecord) (t : String)
    (ht : t ∈ lastColTimes recs) :
    (bfilledChannels recs t (minKey recs)).any Option.isSome = true := by
  have hmem := List.mem_filter.mp ht
  rcases posOf_spec t (sortedTimes recs) hmem.1 with ⟨i, hpos, hat⟩
  have hcell : (bfilledCell recs t (minKey recs) 0).isSome = true := by
    unfold bfilledCell
    rw [hpos]
    exact bfill_isSome _ i (by rw [wideColumn_getD recs _ 0 t i hat]; exact hmem.2)
  refine List.any_eq_true.mpr ⟨bfilledCell recs t (minKey recs) 0, ?_, hcell⟩
  exact List.mem_map.mpr ⟨0, by simp, rfl⟩

/-- C1 amended: the salinity-harp reshaper drops nothing at the end:
the time coordinate of every successfully reshaped dataset is exactly
the list of reference timestamps (the rows where column 0 is present
before backward fill), the final partial cycle included.  The trailing
drop described by the specification survives only in the light-harp
reader (light_harps.py line 60), while in salinity_harps.py line 129 the
slice is commented out. -/
theorem reshape_times_eq_lastcol (recs : List LogRecord) (ds : Dataset)
    (h : reshape recs = .ok ds) : ds.times = lastColTimes recs := by
  unfold reshape at h
  split at h
  · exact Except.noConfusion h
  · split at h
    · exact Except.noConfusion h
    · injection h with h
      subst h
      show uniq ((stackedRows recs).map (·.1)) = lastColTimes recs
      unfold stackedRows
      refine uniq_map_fst_flatMap _ _ ?_ ?_ ?_
      · exact ((sortLe_perm strLe _).nodup_iff.mpr (uniq_nodup _)).filter _
      · intro t ht
        refine List.ne_nil_of_mem (a :=
          (t, minKey recs, bfilledChannels recs t (minKey recs))) ?_
        refine List.mem_filterMap.mpr ⟨minKey recs, ?_, ?_⟩
        · rename_i hdup hnil
          have hrecs : recs ≠ [] := by
            intro he
            subst he
            exact hnil rfl
          exact getD_zero_mem _ _
            (sortLe_ne_nil _ _ (uniq_ne_nil _ (by simpa using hrecs)))
        · simp [bfilledChannels_any recs t ht]
      · intro t ht r hr
        rcases List.mem_filterMap.mp hr with ⟨k, hk, hik⟩
        by_cases hc : (bfilledChannels recs t k).any Option.isSome
        · rw [if_pos hc] at hik
          exact (congrArg Prod.fst (Option.some_inj.mp hik)).symm
        · rw [if_neg hc] at hik
          exact Option.noConfusion hik

/-- C1 amended witness: on the one-complete-plus-one-partial demo log
the reshaped time coordinate is the full reference timestamp list. -/
theorem reshape_times_eq_lastcol_witness :
    ((reshape (validRecords demoTrailingLog)).toOption.getD default).times =
      lastColTimes (validRecords demoTrailingLog) :=
  reshape_times_eq_lastcol _ _ (by with_unfolding_all rfl)

end Harps
